import Mathlib

/-!
Verification development for the embedding ingestion and hybrid retrieval
pipeline of the Ollama-RAG-Sync repository.

The Python sources are shallowly embedded as executable Lean definitions:

* `chunk_text`, `chunkLoop` — the line-based chunk splitter of
  RAG/Vectors/python_scripts/generate_chunk_embeddings.py (`chunk_text`).
  The Python `while` loop advances its cursor by at least one line per
  iteration starting from 0 and stops once the cursor reaches the line
  count, so it performs at most `total_lines` iterations; the loop is
  embedded as a structurally recursive function with fuel `total_lines`,
  which is extensionally the same computation.
* `extract_embedding`, `get_embedding_from_ollama` — the response-shape
  normalization of `get_embedding_from_ollama` in the same file (the
  variant in generate_document_embedding.py has identical extraction
  logic), over an inductive JSON value type.  Python `None` is `.null`;
  an exception raised while probing the parsed response (and caught by
  the surrounding broad `except`) is `.raised`.
* `generate_chunk_embeddings`, `processCompletions` — the bounded-pool
  chunk-embedding orchestrator.  Network calls are an oracle
  `outcome : Nat → CallOutcome`; the nondeterministic completion order of
  `as_completed` is an explicit list of `(index, chunk)` pairs which the
  theorems constrain to be a permutation of the enumerated chunks.
* `store_embeddings_in_chromadb`, `ingestOne` — the ChromaDB writer of
  store_embeddings.py.  The external store is a map from collection name
  to entry list; `add` appends, `delete(ids=...)` and
  `delete(where={source: ...})` filter.  Unicode NFKD normalization is an
  explicit function parameter `nfkd`.
* `query_chroma` — the hybrid retriever of Proxy/ragProxy.py.  The
  underlying vector indexes are a map from collection name to the hit
  lists they would return; Python's stable `sorted(key=..., reverse=True)`
  is modelled by the stable descending insertion sort `sortDesc`.

Python string operations (`split`, `strip`, `lower`, basename splitting)
are embedded as structurally recursive functions over `String.data` so
that every definition evaluates inside the kernel.  Floating point
numbers are modelled as rationals.
-/

namespace ORS

set_option maxRecDepth 40000

/-- Characters are whitespace exactly when Python's `str.strip` removes
them; `pyIsBlank text` models Python's `not text or not text.strip()`. -/
def pyIsBlank (s : String) : Bool :=
  s.data.all Char.isWhitespace

/-- Python's `text.split(sep)` for a one-character separator, over the
character list of the text: `"".split` gives `[""]`, and every separator
occurrence produces a boundary. -/
def splitCharList (sep : Char) : List Char → List (List Char)
  | [] => [[]]
  | c :: rest =>
    match splitCharList sep rest with
    | [] => [[c]]
    | h :: t => if c = sep then [] :: h :: t else (c :: h) :: t

/-- Python's `text.split('\n')`, the line splitter used by `chunk_text`. -/
def splitLines (cs : List Char) : List (List Char) :=
  splitCharList '\n' cs

/-- Python's `str.lower`, used by the store writer's collection-name
deduplication. -/
def pyLower (s : String) : String :=
  String.mk (s.data.map Char.toLower)

/-- A chunk produced by `chunk_text`: the joined text of the chunk's lines
and its 1-based inclusive line range. -/
structure Chunk where
  text : String
  start_line : Nat
  end_line : Nat
deriving DecidableEq

/-- Default chunk used with `List.getD` in theorem statements. -/
def dfltChunk : Chunk := ⟨"", 0, 0⟩

/-- The cursor advance of the chunk loop:
`current_line_index += max(1, chunk_size - chunk_overlap)`. -/
def chunkStep (chunk_size chunk_overlap : Nat) : Nat :=
  max 1 (chunk_size - chunk_overlap)

/-- The `while current_line_index < total_lines` loop of `chunk_text`,
with explicit fuel (see the module comment: fuel `lines.length` is always
enough, so this is the same computation as the Python loop). -/
def chunkLoop (lines : List (List Char)) (chunk_size chunk_overlap : Nat) :
    Nat → Nat → List Chunk
  | 0, _ => []
  | fuel + 1, cur =>
    if cur < lines.length then
      let endIdx := min (cur + chunk_size) lines.length
      let c : Chunk :=
        ⟨String.mk (List.intercalate ['\n'] ((lines.drop cur).take (endIdx - cur))),
         cur + 1, endIdx⟩
      if endIdx = lines.length then [c]
      else c :: chunkLoop lines chunk_size chunk_overlap fuel
        (cur + chunkStep chunk_size chunk_overlap)
    else []

/-- `chunk_text` of generate_chunk_embeddings.py: split a text into chunks
by fixed numbers of lines with overlap. -/
def chunk_text (text : String) (chunk_size chunk_overlap : Nat) : List Chunk :=
  if pyIsBlank text then [⟨text, 1, 1⟩]
  else
    let lines := splitLines text.data
    if lines.length ≤ chunk_size then [⟨text, 1, lines.length⟩]
    else chunkLoop lines chunk_size chunk_overlap lines.length 0

/-- JSON values, the parsed responses of the embedding service. -/
inductive JVal where
  | num (q : ℚ)
  | str (s : String)
  | bool (b : Bool)
  | null
  | arr (l : List JVal)
  | obj (l : List (String × JVal))

/-- Python truthiness of a JSON value (`if embeddings_val and ...`). -/
def pyTruthy : JVal → Bool
  | .num q => q != 0
  | .str s => s != ""
  | .bool b => b
  | .null => false
  | .arr l => !l.isEmpty
  | .obj l => !l.isEmpty

/-- Outcome of the response-shape probing inside
`get_embedding_from_ollama`: either the value left in the Python variable
`embedding` (`.val .null` standing for Python `None`), or an exception
raised while subscripting a non-indexable value (caught by the broad
`except` of the chunk-generator variant). -/
inductive ExtractResult where
  | val (v : JVal)
  | raised

/-- The response-format handling block of `get_embedding_from_ollama`
(lines 207-226 of generate_chunk_embeddings.py): dict with `embedding`,
dict with `embeddings` (first element if it is a list, otherwise the
value itself), bare list headed by a dict carrying either field, bare
list headed by a number (Python `bool` is an `int`, so a leading JSON
boolean also matches `isinstance(..., (int, float))`), else `None`. -/
def extract_embedding (response_data : JVal) : ExtractResult :=
  match response_data with
  | .obj kvs =>
    match kvs.lookup "embedding" with
    | some v => .val v
    | none =>
      match kvs.lookup "embeddings" with
      | some ev =>
        if pyTruthy ev then
          match ev with
          | .arr (.arr l :: _) => .val (.arr l)
          | .arr (x :: rest) => .val (.arr (x :: rest))
          | .str s => .val (.str s)
          | _ => .raised
        else .val ev
      | none => .val .null
  | .arr (x :: rest) =>
    match x with
    | .obj kvs1 =>
      match kvs1.lookup "embedding" with
      | some v => .val v
      | none =>
        match kvs1.lookup "embeddings" with
        | some v => .val v
        | none => .val .null
    | .num _ => .val (.arr (x :: rest))
    | .bool _ => .val (.arr (x :: rest))
    | _ => .val .null
  | _ => .val .null

/-- The `embedding` field of the dictionary returned by
`get_embedding_from_ollama` for a parsed response, as an option (`none`
is Python `None`, i.e. the call is a Failure with no embedding). -/
def get_embedding_from_ollama (response_data : JVal) : Option JVal :=
  match extract_embedding response_data with
  | .raised => none
  | .val .null => none
  | .val v => some v

/-- The dictionary returned by one `get_embedding_from_ollama` call:
embedding (possibly `None`), elapsed duration, creation timestamp. -/
structure EmbedResponse where
  embedding : Option JVal
  duration : ℚ
  created_at : String

/-- Observable outcome of one chunk-embedding future: the returned
dictionary, or an exception re-raised by `future.result()`. -/
inductive CallOutcome where
  | raised
  | ok (r : EmbedResponse)

/-- One element of the list returned by `generate_chunk_embeddings`
(the `text` key is present only when `include_text` is set). -/
structure ChunkEmbedding where
  chunk_id : Nat
  start_line : Nat
  end_line : Nat
  embedding : JVal
  duration : ℚ
  created_at : String
  text : Option String

/-- The `for future in as_completed(...)` collection loop of
`generate_chunk_embeddings`: walk the completion order, abort with `none`
on a raised exception or a `None` embedding, otherwise write the
chunk-embedding record into slot `i` of the index-keyed result array. -/
def processCompletions (outcome : Nat → CallOutcome) (include_text : Bool) :
    List (Nat × Chunk) → List (Option ChunkEmbedding) →
    Option (List (Option ChunkEmbedding))
  | [], acc => some acc
  | (i, cd) :: rest, acc =>
    match outcome i with
    | .raised => none
    | .ok r =>
      match r.embedding with
      | none => none
      | some emb =>
        processCompletions outcome include_text rest
          (acc.set i (some
            { chunk_id := i, start_line := cd.start_line, end_line := cd.end_line,
              embedding := emb, duration := r.duration, created_at := r.created_at,
              text := if include_text then some cd.text else none }))

/-- `generate_chunk_embeddings` of generate_chunk_embeddings.py: reject
blank input, split into chunks, then run the worker pool; `outcome` is
the oracle giving each chunk call's result and `completionOrder` the
order in which `as_completed` yields the futures (a permutation of the
enumerated chunks). -/
def generate_chunk_embeddings (text : String) (chunk_size chunk_overlap : Nat)
    (outcome : Nat → CallOutcome) (include_text : Bool)
    (completionOrder : List (Nat × Chunk)) :
    Option (List (Option ChunkEmbedding)) :=
  if pyIsBlank text then none
  else
    processCompletions outcome include_text completionOrder
      (List.replicate (chunk_text text chunk_size chunk_overlap).length none)

/-- Metadata values stored in ChromaDB entries: strings, ints, floats
(as rationals) or `None`. -/
inductive MVal where
  | s (v : String)
  | i (v : Int)
  | f (v : ℚ)
  | nul
deriving DecidableEq

/-- Rendering of a metadata value inside an f-string (`line_range`). -/
def MVal.render : MVal → String
  | .s v => v
  | .i v => toString v
  | .f v => toString v
  | .nul => "None"

/-- One ChromaDB entry: id, stored document text, embedding vector and
metadata mapping. -/
structure Entry where
  id : String
  document : String
  embedding : List ℚ
  metadata : List (String × MVal)
deriving DecidableEq

/-- The external vector store: each collection name holds a list of
entries; `add` appends, the two delete forms filter. -/
def Store := String → List Entry

/-- Write one collection of the store. -/
def setColl (s : Store) (n : String) (l : List Entry) : Store :=
  fun m => if m = n then l else s m

/-- The metadata `source` field of an entry, matched by
`delete(where={"source": source_path})`. -/
def entrySource (e : Entry) : Option MVal :=
  e.metadata.lookup "source"

/-- The document-embedding JSON handed to store_embeddings.py
(`document_embedding`): text, embedding, optional duration, optional
creation timestamp (`.get("created_at", None)`). -/
structure DocEmbedding where
  text : String
  embedding : List ℚ
  duration : Option ℚ
  created_at : Option String
deriving DecidableEq

/-- One chunk-embedding JSON record handed to store_embeddings.py
(`chunks_data` elements).  `start_line`/`end_line` are read with
`.get(..., 1)`, hence optional. -/
structure ChunkData where
  chunk_id : Nat
  text : String
  embedding : List ℚ
  duration : Option ℚ
  created_at : Option String
  start_line : Option Nat
  end_line : Option Nat
deriving DecidableEq

/-- The collection names a store call resolves to: `["default"]`, plus
the requested name when it is non-empty and not `default` up to case. -/
def collection_names_to_use (collection_name : String) : List String :=
  if collection_name ≠ "" ∧ pyLower collection_name ≠ "default" then
    ["default", collection_name]
  else ["default"]

/-- The document entry written into `{coll}_documents`. -/
def mkDocEntry (nfkd : String → String) (source_path document_id coll : String)
    (d : DocEmbedding) : Entry :=
  { id := document_id,
    document := nfkd d.text,
    embedding := d.embedding,
    metadata :=
      [("source", .s source_path), ("collection", .s coll),
       ("created_at", match d.created_at with | some t => .s t | none => .nul)] ++
      (match d.duration with | some q => [("duration", MVal.f q)] | none => []) }

/-- The id `f"{document_id}_chunk_{chunk_id}"` of a chunk entry. -/
def chunkEntryId (document_id : String) (cd : ChunkData) : String :=
  document_id ++ "_chunk_" ++ toString cd.chunk_id

/-- The chunk entry written into `{coll}_chunks` (`total` is
`len(chunks_data)`). -/
def mkChunkEntry (nfkd : String → String) (source_path document_id coll : String)
    (total : Nat) (cd : ChunkData) : Entry :=
  { id := chunkEntryId document_id cd,
    document := nfkd cd.text,
    embedding := cd.embedding,
    metadata :=
      [("source", .s source_path), ("collection", .s coll),
       ("source_id", .s document_id), ("chunk_id", .i cd.chunk_id),
       ("total_chunks", .i total),
       ("start_line", .i (cd.start_line.getD 1)),
       ("end_line", .i (cd.end_line.getD 1)),
       ("line_range", .s (toString (cd.start_line.getD 1) ++ "-" ++ toString (cd.end_line.getD 1))),
       ("created_at", match cd.created_at with | some t => .s t | none => .nul)] ++
      (match cd.duration with | some q => [("duration", MVal.f q)] | none => []) }

/-- The body of the `for coll_name in collection_names_to_use` loop of
`store_embeddings_in_chromadb`: delete the document by id and by source,
delete the chunks by source, then add the document entry and all chunk
entries. -/
def ingestOne (nfkd : String → String) (source_path document_id : String)
    (d : DocEmbedding) (cs : List ChunkData) (s : Store) (coll : String) : Store :=
  let dn := coll ++ "_documents"
  let cn := coll ++ "_chunks"
  let docs := (s dn).filter (fun e => ¬ e.id = document_id)
  let docs := docs.filter (fun e => ¬ entrySource e = some (.s source_path))
  let docs := docs ++ [mkDocEntry nfkd source_path document_id coll d]
  let chs := (s cn).filter (fun e => ¬ entrySource e = some (.s source_path))
  let chs := chs ++ cs.map (mkChunkEntry nfkd source_path document_id coll cs.length)
  setColl (setColl s dn docs) cn chs

/-- `store_embeddings_in_chromadb` of store_embeddings.py: iterate the
write over every resolved collection name. -/
def store_embeddings_in_chromadb (nfkd : String → String) (d : DocEmbedding)
    (cs : List ChunkData) (source_path document_id collection_name : String)
    (s : Store) : Store :=
  (collection_names_to_use collection_name).foldl
    (ingestOne nfkd source_path document_id d cs) s

/-- One nearest-neighbour hit returned by a ChromaDB `query` call:
document text, metadata, cosine distance. -/
structure QueryHit where
  document : String
  metadata : List (String × MVal)
  distance : ℚ
deriving DecidableEq

/-- One element of the `results` list built by `query_chroma`; the
`adjusted_similarity` key is optional because it is deleted from every
result before returning. -/
structure RagResult where
  document : String
  metadata : List (String × MVal)
  similarity : ℚ
  adjusted_similarity : Option ℚ
  is_chunk : Bool
deriving DecidableEq

/-- The dictionary returned by `query_chroma`. -/
structure QueryOutput where
  results : List RagResult
  count : Nat
  document_names : List String
deriving DecidableEq

/-- The underlying indexes seen by `query_chroma`: each collection name
maps to the hit list its `query` call would return (a missing or failing
collection returns no hits, matching the caught-and-degraded exception). -/
def HitStore := String → List QueryHit

/-- Python `doc_name.split('/')[-1] if '/' in doc_name else
doc_name.split('\\')[-1] if '\\' in doc_name else doc_name`. -/
def baseName (name : String) : String :=
  if name.data.contains '/' then
    String.mk (((splitCharList '/' name.data).getLastD name.data))
  else if name.data.contains '\\' then
    String.mk (((splitCharList '\\' name.data).getLastD name.data))
  else name

/-- The hits surviving the `similarity >= threshold` filter. -/
def surviving (hits : List QueryHit) (threshold : ℚ) : List QueryHit :=
  hits.filter (fun h => threshold ≤ 1 - h.distance)

/-- The file names collected into `full_doc_names` from one collection's
surviving hits (only string-valued `source` metadata is collected). -/
def sideNames (hits : List QueryHit) (threshold : ℚ) : List String :=
  (surviving hits threshold).filterMap (fun h =>
    match (h.metadata.lookup "source").getD (.s "unknown") with
    | .s v => some (baseName v)
    | _ => none)

/-- The document-collection loop body of `query_chroma`: keep surviving
hits, convert distance to similarity, apply the document weight only in
`both` mode. -/
def processDocHits (hits : List QueryHit) (threshold document_weight : ℚ)
    (both : Bool) : List RagResult :=
  (surviving hits threshold).map (fun h =>
    { document := h.document, metadata := h.metadata,
      similarity := 1 - h.distance,
      adjusted_similarity :=
        some (if both then (1 - h.distance) * document_weight else 1 - h.distance),
      is_chunk := false })

/-- The `line_range` metadata completion applied to chunk results. -/
def updateLineRange (md : List (String × MVal)) : List (String × MVal) :=
  if (md.lookup "line_range").isSome then md
  else
    match md.lookup "start_line", md.lookup "end_line" with
    | some sl, some el => md ++ [("line_range", .s (sl.render ++ "-" ++ el.render))]
    | _, _ => md ++ [("line_range", .s "unknown")]

/-- The chunks-collection loop body of `query_chroma`. -/
def processChunkHits (hits : List QueryHit) (threshold chunk_weight : ℚ)
    (both : Bool) : List RagResult :=
  (surviving hits threshold).map (fun h =>
    { document := h.document, metadata := updateLineRange h.metadata,
      similarity := 1 - h.distance,
      adjusted_similarity :=
        some (if both then (1 - h.distance) * chunk_weight else 1 - h.distance),
      is_chunk := true })

/-- Stable insertion of `x` behind every element whose key is at least
`k x` (the placement Python's stable descending sort gives a new
element). -/
def insertDesc (k : RagResult → ℚ) (x : RagResult) : List RagResult → List RagResult
  | [] => [x]
  | y :: ys => if k x ≤ k y then y :: insertDesc k x ys else x :: y :: ys

/-- Python's stable `sorted(l, key=k, reverse=True)`. -/
def sortDesc (k : RagResult → ℚ) (l : List RagResult) : List RagResult :=
  l.foldl (fun acc x => insertDesc k x acc) []

/-- Insertion-order deduplication, modelling the growing `set()` of
`full_doc_names`. -/
def dedupAppend (acc : List String) (n : String) : List String :=
  if n ∈ acc then acc else acc ++ [n]

/-- `query_chroma` of Proxy/ragProxy.py.  Note that the document and
chunk indexes are the fixed collection names `document_collection` and
`document_chunks_collection` of the source, not derived from any
requested collection. -/
def query_chroma (store : HitStore) (query_mode : String) (n_results : Nat)
    (threshold chunk_weight document_weight : ℚ) : QueryOutput :=
  let doc_hits :=
    if query_mode = "documents" ∨ query_mode = "both" then
      store "document_collection"
    else []
  let chunk_hits :=
    if query_mode = "chunks" ∨ query_mode = "both" then
      store "document_chunks_collection"
    else []
  let doc_results_list :=
    processDocHits doc_hits threshold document_weight (query_mode = "both")
  let chunk_results_list :=
    processChunkHits chunk_hits threshold chunk_weight (query_mode = "both")
  let full_doc_names :=
    (sideNames doc_hits threshold ++ sideNames chunk_hits threshold).foldl
      dedupAppend []
  let all_results :=
    if query_mode = "documents" then doc_results_list
    else if query_mode = "chunks" then chunk_results_list
    else doc_results_list ++ chunk_results_list
  let key : RagResult → ℚ :=
    if query_mode = "both" then fun r => r.adjusted_similarity.getD r.similarity
    else fun r => r.similarity
  let processed := sortDesc key all_results
  let processed :=
    if n_results < processed.length then processed.take n_results else processed
  let final := processed.map (fun r => { r with adjusted_similarity := none })
  { results := final, count := final.length, document_names := full_doc_names }

/-- Numeric vector in the sense of the spec's response-shape contract
(used only to state that a response resolves to no numeric vector). -/
def specIsNumericVector : JVal → Bool
  | .arr l => l.all (fun v => match v with | .num _ => true | _ => false)
  | _ => false

/-- The deduplicated set `{"default"} ∪ {collection_name}` named by the
spec's collection-resolution sentence, as a list. -/
def specResolvedNames (collection_name : String) : List String :=
  if collection_name = "default" then ["default"] else ["default", collection_name]

/-- A 45-line input text (44 newlines), the concrete chunking scenario. -/
def text45 : String :=
  String.mk (List.intercalate ['\n'] (List.replicate 45 ['l', 'i', 'n', 'e']))

/-- Candidate document hits with similarities 0.9, 0.4, 0.6. -/
def store7 : HitStore := fun n =>
  if n = "document_collection" then
    [⟨"d1", [("source", .s "a.md")], 1/10⟩,
     ⟨"d2", [("source", .s "b.md")], 3/5⟩,
     ⟨"d3", [("source", .s "c.md")], 2/5⟩]
  else []

/-- Hit store for the weighted-ranking scenario: one document hit with raw
similarity 0.5 and one chunk hit with raw similarity 0.9. -/
def c2store : HitStore := fun n =>
  if n = "document_collection" then [⟨"docText", [("source", .s "doc.md")], 1/2⟩]
  else if n = "document_chunks_collection" then
    [⟨"chunkText", [("source", .s "doc.md")], 1/10⟩]
  else []

def emptyStore : Store := fun _ => []

def wDoc1 : DocEmbedding := ⟨"one", [1], none, some "t1"⟩

def wDoc2 : DocEmbedding := ⟨"two", [2], some 1, some "t2"⟩

def wChunk1 : ChunkData := ⟨0, "c1", [1], none, none, some 1, some 1⟩

def wChunk2 : ChunkData := ⟨0, "c2", [2], some 1, some "t2", some 1, some 2⟩

def foreignChunk : Entry :=
  ⟨"doc_chunk_0", "other", [9], [("source", .s "/other"), ("collection", .s "default")]⟩

def c6start : Store := fun n => if n = "default_chunks" then [foreignChunk] else []

def c6final : Store :=
  store_embeddings_in_chromadb (fun t => t) wDoc2 [wChunk2] "/s" "doc" "default"
    (store_embeddings_in_chromadb (fun t => t) wDoc1 [wChunk1] "/s" "doc" "default" c6start)

def w10outcome : Nat → CallOutcome :=
  fun _ => .ok ⟨get_embedding_from_ollama (.obj [("embeddings", .arr [])]), 0, "t"⟩

/-- A five-line text, giving five one-line chunks with
`chunk_size = 1`, `chunk_overlap = 0`. -/
def text5 : String := "l1\nl2\nl3\nl4\nl5"

/-- Outcome oracle in which the call for chunk 4 (index 3) raises and
every other call succeeds. -/
def w4outcome : Nat → CallOutcome :=
  fun i => if i = 3 then .raised else .ok ⟨some (.arr [.num 1]), 0, "t"⟩

/-- Outcome oracle in which every call succeeds. -/
def w5outcome : Nat → CallOutcome :=
  fun _ => .ok ⟨some (.arr [.num 1]), 0, "t"⟩

/-- The top result of the concrete `documents`-mode query on `store7`. -/
def r7top : RagResult := ⟨"d1", [("source", .s "a.md")], 9/10, none, false⟩

/-- The second result of the concrete `documents`-mode query on `store7`. -/
def r7b : RagResult := ⟨"d3", [("source", .s "c.md")], 3/5, none, false⟩

/-- The chunk result of the concrete `both`-mode query on `c2store`. -/
def c2top : RagResult :=
  ⟨"chunkText", [("source", .s "doc.md"), ("line_range", .s "unknown")], 9/10, none, true⟩

/-- The document result of the concrete `both`-mode query on `c2store`. -/
def c2doc : RagResult := ⟨"docText", [("source", .s "doc.md")], 1/2, none, false⟩

/-- Indexes as left by the store writer for collection `default`: the
persisted collection `default_documents` holds a perfectly matching
document (distance 0); the names `document_collection` and
`document_chunks_collection` hold nothing. -/
def c3store : HitStore := fun n =>
  if n = "default_documents" then [⟨"stored doc", [("source", .s "a.md")], 0⟩] else []

theorem chunkStep_eq (chunk_size chunk_overlap : Nat) (hov : chunk_overlap < chunk_size) :
    chunkStep chunk_size chunk_overlap = chunk_size - chunk_overlap := by
  unfold chunkStep
  omega

theorem chunkLoop_spec (lines : List (List Char)) (size overlap : Nat)
    (hov : overlap < size) :
    ∀ fuel cur, cur < lines.length → lines.length ≤ fuel + cur →
      0 < (chunkLoop lines size overlap fuel cur).length ∧
      ((chunkLoop lines size overlap fuel cur).getD 0 dfltChunk).start_line = cur + 1 ∧
      ((chunkLoop lines size overlap fuel cur).getD
        ((chunkLoop lines size overlap fuel cur).length - 1) dfltChunk).end_line
        = lines.length ∧
      (chunkLoop lines size overlap fuel cur).length
        = (lines.length - cur - size + (size - overlap) - 1) / (size - overlap) + 1 ∧
      ∀ i, i + 1 < (chunkLoop lines size overlap fuel cur).length →
        ((chunkLoop lines size overlap fuel cur).getD (i + 1) dfltChunk).start_line + overlap
          = ((chunkLoop lines size overlap fuel cur).getD i dfltChunk).end_line + 1 := by
  intro fuel
  induction fuel with
  | zero => intro cur hcur hle; omega
  | succ fuel ih =>
    intro cur hcur hle
    rw [chunkLoop, if_pos hcur, chunkStep_eq size overlap hov]
    by_cases hend : min (cur + size) lines.length = lines.length
    · rw [if_pos hend]
      refine ⟨by simp, by simp [List.getD], ?_, ?_, ?_⟩
      · simpa [List.getD] using hend
      · have e1 : lines.length - cur - size + (size - overlap) - 1 = (size - overlap) - 1 := by
          omega
        rw [e1, Nat.div_eq_of_lt (by omega)]
        simp
      · intro i hi
        simp at hi
    · rw [if_neg hend]
      have hlt : cur + size < lines.length := by omega
      have hmin : min (cur + size) lines.length = cur + size := by omega
      obtain ⟨h1, h2, h3, h4, h5⟩ := ih (cur + (size - overlap)) (by omega) (by omega)
      refine ⟨by simp, by simp [List.getD], ?_, ?_, ?_⟩
      · have e0 : (chunkLoop lines size overlap fuel (cur + (size - overlap))).length
            = ((chunkLoop lines size overlap fuel (cur + (size - overlap))).length - 1) + 1 := by
          omega
        simp only [List.length_cons, Nat.add_sub_cancel]
        rw [e0, List.getD_cons_succ]
        exact h3
      · simp only [List.length_cons, h4]
        by_cases hAs : lines.length - cur - size ≤ size - overlap
        · have e1 : lines.length - (cur + (size - overlap)) - size + (size - overlap) - 1
              = (size - overlap) - 1 := by omega
          have e2 : lines.length - cur - size + (size - overlap) - 1
              = (lines.length - cur - size - 1) + (size - overlap) := by omega
          rw [e1, Nat.div_eq_of_lt (by omega), e2, Nat.add_div_right _ (by omega),
            Nat.div_eq_of_lt (by omega)]
        · have e1 : lines.length - (cur + (size - overlap)) - size + (size - overlap) - 1
              = lines.length - cur - size - 1 := by omega
          have e2 : lines.length - cur - size + (size - overlap) - 1
              = (lines.length - cur - size - 1) + (size - overlap) := by omega
          rw [e1, e2, Nat.add_div_right _ (by omega)]
      · intro i hi
        match i with
        | 0 =>
          rw [List.getD_cons_succ, List.getD_cons_zero, h2]
          simp only [hmin]
          omega
        | j + 1 =>
          rw [List.getD_cons_succ, List.getD_cons_succ]
          exact h5 j (by simpa using hi)

theorem chunk_text_eq_loop (text : String) (size overlap : Nat)
    (hb : pyIsBlank text = false) (hlen : size < (splitLines text.data).length) :
    chunk_text text size overlap
      = chunkLoop (splitLines text.data) size overlap (splitLines text.data).length 0 := by
  rw [chunk_text, hb]
  simp only [Bool.false_eq_true, if_false]
  rw [if_neg (by omega)]

/-- C1 counterexample: the claim quantifies over every text with more
lines than `chunkSize`, but a whitespace-only text takes the early blank
return of `chunk_text`.  The text of two newline characters has 3 lines,
exceeding `chunkSize = 2` with `chunkOverlap = 0 < 2`, yet `chunk_text`
returns a single chunk whose `end_line` is 1, not the total line count 3
(and one chunk instead of the claimed ceil((3-0)/2) = 2). -/
theorem C1_counterexample :
    (0 : Nat) < 2 ∧ 2 < (splitLines ("\n\n" : String).data).length ∧
    ¬ (((chunk_text "\n\n" 2 0).getD ((chunk_text "\n\n" 2 0).length - 1)
          dfltChunk).end_line = (splitLines ("\n\n" : String).data).length ∧
       (chunk_text "\n\n" 2 0).length
         = ((splitLines ("\n\n" : String).data).length - 0 + (2 - 0) - 1) / (2 - 0)) := by
  decide

/-- C1 (amended): for every text that is not whitespace-only whose total
line count exceeds `chunkSize`, with `chunkSize > chunkOverlap ≥ 0`,
`chunk_text` returns chunks in which every pair of consecutive chunks
shares exactly `chunkOverlap` lines (the next chunk's `start_line` plus
the overlap is one past the previous chunk's `end_line`), the last
chunk's `end_line` equals the total line count, and the number of chunks
equals `ceil((totalLines - chunkOverlap) / (chunkSize - chunkOverlap))`;
moreover a 45-line text with `chunkSize = 20` and `chunkOverlap = 2`
yields exactly the three chunks with line ranges 1-20, 19-38 and
37-45. -/
theorem C1_chunk_text_properties :
    (∀ (text : String) (size overlap : Nat), overlap < size →
       pyIsBlank text = false → size < (splitLines text.data).length →
       (0 < (chunk_text text size overlap).length ∧
        ((chunk_text text size overlap).getD ((chunk_text text size overlap).length - 1)
          dfltChunk).end_line = (splitLines text.data).length ∧
        (chunk_text text size overlap).length
          = ((splitLines text.data).length - overlap + (size - overlap) - 1)
              / (size - overlap) ∧
        ∀ i, i + 1 < (chunk_text text size overlap).length →
          ((chunk_text text size overlap).getD (i + 1) dfltChunk).start_line + overlap
            = ((chunk_text text size overlap).getD i dfltChunk).end_line + 1)) ∧
    (chunk_text text45 20 2).map (fun c => (c.start_line, c.end_line))
      = [(1, 20), (19, 38), (37, 45)] := by
  constructor
  · intro text size overlap hov hb hlen
    have heq := chunk_text_eq_loop text size overlap hb hlen
    obtain ⟨h1, h2, h3, h4, h5⟩ := chunkLoop_spec (splitLines text.data) size overlap hov
      (splitLines text.data).length 0 (by omega) (by omega)
    rw [heq]
    refine ⟨h1, h3, ?_, h5⟩
    rw [h4]
    have e2 : (splitLines text.data).length - overlap + (size - overlap) - 1
        = ((splitLines text.data).length - 0 - size + (size - overlap) - 1)
            + (size - overlap) := by omega
    rw [e2, Nat.add_div_right _ (by omega)]
  · decide

/-- C1 witness: the amended theorem applied at the concrete 45-line text
with `chunkSize = 20`, `chunkOverlap = 2` gives the chunk count
ceil((45-2)/18) = 3. -/
theorem C1_witness :
    (chunk_text text45 20 2).length
      = ((splitLines text45.data).length - 2 + (20 - 2) - 1) / (20 - 2) :=
  (C1_chunk_text_properties.1 text45 20 2 (by decide) (by decide) (by decide)).2.2.1

theorem processCompletions_fail (outcome : Nat → CallOutcome) (inc : Bool) :
    ∀ (ord : List (Nat × Chunk)) (acc : List (Option ChunkEmbedding)) (i : Nat) (cd : Chunk),
      (i, cd) ∈ ord →
      (outcome i = .raised ∨ ∃ r, outcome i = .ok r ∧ r.embedding = none) →
      processCompletions outcome inc ord acc = none := by
  intro ord
  induction ord with
  | nil => intro acc i cd h; simp at h
  | cons p rest ih =>
    intro acc i cd hmem hfail
    obtain ⟨j, c⟩ := p
    rcases hout : outcome j with _ | r
    · simp [processCompletions, hout]
    · rcases hemb : r.embedding with _ | v
      · simp [processCompletions, hout, hemb]
      · simp only [processCompletions, hout, hemb]
        rcases List.mem_cons.mp hmem with heq | hrest
        · cases heq
          rcases hfail with h | ⟨r2, hr2, he2⟩
          · rw [h] at hout; cases hout
          · rw [hr2] at hout
            cases hout
            rw [he2] at hemb
            cases hemb
        · exact ih _ i cd hrest hfail

theorem mem_enum_fields (l : List Chunk) (p : Nat × Chunk) (h : p ∈ l.enum) :
    p.1 < l.length ∧ p.2 = l.getD p.1 dfltChunk := by
  obtain ⟨k, hk, hget⟩ := List.mem_iff_getElem.mp h
  rw [List.getElem_enum] at hget
  have hkl : k < l.length := by simpa [List.enum_length] using hk
  cases hget
  exact ⟨hkl, (List.getD_eq_getElem l dfltChunk hkl).symm⟩

theorem getD_mem_enum (l : List Chunk) (i : Nat) (hi : i < l.length) :
    (i, l.getD i dfltChunk) ∈ l.enum := by
  have hi2 : i < l.enum.length := by simpa [List.enum_length] using hi
  have hget := List.getElem_enum l i hi2
  rw [List.getD_eq_getElem l dfltChunk hi, ← hget]
  exact List.getElem_mem hi2

/-- C4: if any chunk-embedding call fails (an exception from
`future.result()` or a response whose embedding is `None`), the whole of
`generate_chunk_embeddings` returns Failure (`None`), for every text,
parameters and completion order — no partial result is returned. -/
theorem C4_all_or_nothing :
    ∀ (text : String) (size overlap : Nat) (outcome : Nat → CallOutcome) (inc : Bool)
      (order : List (Nat × Chunk)),
      List.Perm order (chunk_text text size overlap).enum →
      (∃ i, i < (chunk_text text size overlap).length ∧
        (outcome i = .raised ∨ ∃ r, outcome i = .ok r ∧ r.embedding = none)) →
      generate_chunk_embeddings text size overlap outcome inc order = none := by
  intro text size overlap outcome inc order hperm hfail
  obtain ⟨i, hi, hf⟩ := hfail
  unfold generate_chunk_embeddings
  by_cases hb : pyIsBlank text
  · simp [hb]
  · simp only [hb, Bool.false_eq_true, if_false]
    have hmem := getD_mem_enum (chunk_text text size overlap) i hi
    exact processCompletions_fail outcome inc order _ i _ (hperm.mem_iff.mpr hmem) hf

theorem processCompletions_ok (outcome : Nat → CallOutcome) (inc : Bool) :
    ∀ (ord : List (Nat × Chunk)) (acc : List (Option ChunkEmbedding)),
      (∀ p ∈ ord, ∃ r v, outcome p.1 = .ok r ∧ r.embedding = some v) →
      (∀ p ∈ ord, p.1 < acc.length) →
      ∃ l, processCompletions outcome inc ord acc = some l ∧ l.length = acc.length ∧
        (∀ i, i ∉ ord.map Prod.fst → l.getD i none = acc.getD i none) ∧
        ((ord.map Prod.fst).Nodup →
          ∀ i cd, (i, cd) ∈ ord →
            ∃ ce, l.getD i none = some ce ∧ ce.chunk_id = i ∧
              ce.start_line = cd.start_line ∧ ce.end_line = cd.end_line) := by
  intro ord
  induction ord with
  | nil =>
    intro acc hok hbnd
    exact ⟨acc, rfl, rfl, fun i _ => rfl, fun _ i cd h => absurd h (by simp)⟩
  | cons p rest ih =>
    intro acc hok hbnd
    obtain ⟨j, c⟩ := p
    obtain ⟨r, v, hr, hv⟩ := hok (j, c) (List.mem_cons_self _ _)
    simp only [processCompletions, hr, hv]
    obtain ⟨l, hl, hlen, hout, hin⟩ := ih
      (acc.set j (some
        { chunk_id := j, start_line := c.start_line, end_line := c.end_line,
          embedding := v, duration := r.duration, created_at := r.created_at,
          text := if inc then some c.text else none }))
      (fun q hq => hok q (List.mem_cons_of_mem _ hq))
      (fun q hq => by
        have := hbnd q (List.mem_cons_of_mem _ hq)
        simpa using this)
    refine ⟨l, hl, by simpa using hlen, ?_, ?_⟩
    · intro i hi
      rw [List.map_cons, List.mem_cons, not_or] at hi
      rw [hout i hi.2]
      simp [List.getD, List.getElem?_set_ne (Ne.symm hi.1)]
    · intro hnodup i cd hmem
      rw [List.map_cons, List.nodup_cons] at hnodup
      rcases List.mem_cons.mp hmem with heq | hrest
      · injection heq with h1 h2
        obtain rfl := h1
        obtain rfl := h2
        refine ⟨{ chunk_id := i, start_line := cd.start_line, end_line := cd.end_line,
                  embedding := v, duration := r.duration, created_at := r.created_at,
                  text := if inc then some cd.text else none }, ?_, rfl, rfl, rfl⟩
        rw [hout i hnodup.1]
        have hjlen : i < acc.length := hbnd (i, cd) (List.mem_cons_self _ _)
        simp [List.getD, List.getElem?_set_self, hjlen]
      · exact hin hnodup.2 i cd hrest

/-- C5: whenever `generate_chunk_embeddings` succeeds, the i-th element
of the returned list carries `chunk_id` i and the `start_line`/`end_line`
of the i-th chunk produced by `chunk_text`, for every completion order of
the parallel calls. -/
theorem C5_source_order :
    ∀ (text : String) (size overlap : Nat) (outcome : Nat → CallOutcome) (inc : Bool)
      (order : List (Nat × Chunk)),
      List.Perm order (chunk_text text size overlap).enum →
      pyIsBlank text = false →
      (∀ i, i < (chunk_text text size overlap).length →
        ∃ r v, outcome i = .ok r ∧ r.embedding = some v) →
      ∃ l, generate_chunk_embeddings text size overlap outcome inc order = some l ∧
        l.length = (chunk_text text size overlap).length ∧
        ∀ i, i < (chunk_text text size overlap).length →
          ∃ ce, l.getD i none = some ce ∧ ce.chunk_id = i ∧
            ce.start_line = ((chunk_text text size overlap).getD i dfltChunk).start_line ∧
            ce.end_line = ((chunk_text text size overlap).getD i dfltChunk).end_line := by
  intro text size overlap outcome inc order hperm hb hok
  unfold generate_chunk_embeddings
  simp only [hb, Bool.false_eq_true, if_false]
  obtain ⟨l, hl, hlen, hout, hin⟩ := processCompletions_ok outcome inc order
    (List.replicate (chunk_text text size overlap).length none)
    (fun p hp => hok p.1 (mem_enum_fields _ p (hperm.mem_iff.mp hp)).1)
    (fun p hp => by
      have := (mem_enum_fields _ p (hperm.mem_iff.mp hp)).1
      simpa using this)
  have hnodup : (order.map Prod.fst).Nodup := by
    have hpm := hperm.map Prod.fst
    rw [List.enum_map_fst] at hpm
    exact hpm.nodup_iff.mpr (List.nodup_range _)
  refine ⟨l, hl, by simpa using hlen, ?_⟩
  intro i hi
  exact hin hnodup i ((chunk_text text size overlap).getD i dfltChunk)
    (hperm.mem_iff.mpr (getD_mem_enum _ i hi))

/-- C4 witness: a five-line text split into five one-line chunks, where
the call for chunk 4 raises, yields overall Failure. -/
theorem C4_witness :
    generate_chunk_embeddings text5 1 0 w4outcome true (chunk_text text5 1 0).enum
      = none :=
  C4_all_or_nothing text5 1 0 w4outcome true (chunk_text text5 1 0).enum
    (List.Perm.refl _) ⟨3, by decide, Or.inl rfl⟩

/-- C5 witness: with every call succeeding on the five-chunk text, the
result is in source chunk order. -/
theorem C5_witness :
    ∃ l, generate_chunk_embeddings text5 1 0 w5outcome true (chunk_text text5 1 0).enum
        = some l ∧
      l.length = (chunk_text text5 1 0).length ∧
      ∀ i, i < (chunk_text text5 1 0).length →
        ∃ ce, l.getD i none = some ce ∧ ce.chunk_id = i ∧
          ce.start_line = ((chunk_text text5 1 0).getD i dfltChunk).start_line ∧
          ce.end_line = ((chunk_text text5 1 0).getD i dfltChunk).end_line :=
  C5_source_order text5 1 0 w5outcome true (chunk_text text5 1 0).enum
    (List.Perm.refl _) (by decide)
    (fun i _ => ⟨⟨some (.arr [.num 1]), 0, "t"⟩, .arr [.num 1], rfl, rfl⟩)

/-- C9 counterexample: the response dict whose `embeddings` key holds the
non-empty list `["x"]` (whose first element is not a list) matches none
of the four recognized shapes — it resolves to no numeric vector — yet
the call succeeds, returning the value as the embedding instead of being
a Failure. -/
theorem C9_counterexample :
    get_embedding_from_ollama (.obj [("embeddings", .arr [.str "x"])])
      = some (.arr [.str "x"]) ∧
    specIsNumericVector (.arr [.str "x"]) = false :=
  ⟨rfl, by decide⟩

/-- C9 (amended): a complete, case-exhaustive characterization of the
client's response-shape normalization.  The four recognized shapes are
taken as claimed: a dict with key `embedding` yields that value; a dict
with key `embeddings` holding a non-empty list whose first element is a
list yields that first element; a bare list headed by a dict yields that
dict's `embedding` (else `embeddings`) field; a top-level list headed by
a number — or a boolean, a Python `int` — yields the list itself.  The
call is a Failure with no embedding produced exactly when the probing
leaves the embedding `None` or raises: a dict carrying neither key, a
dict whose `embeddings` value is `None` or is truthy but neither a list
nor a string (the subscript raises), a bare empty list, a bare list
headed by neither a dict nor a number or boolean, a bare list whose
first dict carries neither key, or a non-dict non-list response.  Every
other `embeddings` value — a falsy non-`None` value such as `0`, the
empty string or the empty list, a non-empty list whose first element is
not a list, or a non-empty string — is returned as-is and the call is
treated as a success although it resolved to no numeric vector.  The
final three conjuncts relate the probe's outcome to the returned
embedding: a non-`None` extracted value is returned as a success, and a
`None` extraction or a raised subscript yields Failure. -/
theorem C9_shape_normalization :
    (∀ (kvs : List (String × JVal)) (v : JVal), kvs.lookup "embedding" = some v →
       extract_embedding (.obj kvs) = .val v) ∧
    (∀ (kvs : List (String × JVal)) (l rest : List JVal),
       kvs.lookup "embedding" = none →
       kvs.lookup "embeddings" = some (.arr (.arr l :: rest)) →
       extract_embedding (.obj kvs) = .val (.arr l)) ∧
    (∀ (kvs : List (String × JVal)) (rest : List JVal) (v : JVal),
       kvs.lookup "embedding" = some v →
       extract_embedding (.arr (.obj kvs :: rest)) = .val v) ∧
    (∀ (kvs : List (String × JVal)) (rest : List JVal) (v : JVal),
       kvs.lookup "embedding" = none → kvs.lookup "embeddings" = some v →
       extract_embedding (.arr (.obj kvs :: rest)) = .val v) ∧
    (∀ (q : ℚ) (rest : List JVal),
       extract_embedding (.arr (.num q :: rest)) = .val (.arr (.num q :: rest))) ∧
    (∀ (b : Bool) (rest : List JVal),
       extract_embedding (.arr (.bool b :: rest)) = .val (.arr (.bool b :: rest))) ∧
    (∀ kvs, kvs.lookup "embedding" = none → kvs.lookup "embeddings" = none →
       extract_embedding (.obj kvs) = .val .null) ∧
    (∀ (kvs : List (String × JVal)) (rest : List JVal),
       kvs.lookup "embedding" = none → kvs.lookup "embeddings" = none →
       extract_embedding (.arr (.obj kvs :: rest)) = .val .null) ∧
    extract_embedding (.arr []) = .val .null ∧
    (∀ s, extract_embedding (.str s) = .val .null) ∧
    extract_embedding .null = .val .null ∧
    (∀ q, extract_embedding (.num q) = .val .null) ∧
    (∀ b, extract_embedding (.bool b) = .val .null) ∧
    (∀ (x : JVal) (rest : List JVal),
       (∀ kvs1, ¬ x = .obj kvs1) → (∀ q, ¬ x = .num q) → (∀ b, ¬ x = .bool b) →
       extract_embedding (.arr (x :: rest)) = .val .null) ∧
    (∀ (kvs : List (String × JVal)) (ev : JVal),
       kvs.lookup "embedding" = none → kvs.lookup "embeddings" = some ev →
       pyTruthy ev = true → (∀ l, ¬ ev = .arr l) → (∀ s, ¬ ev = .str s) →
       extract_embedding (.obj kvs) = .raised) ∧
    (∀ (kvs : List (String × JVal)) (ev : JVal),
       kvs.lookup "embedding" = none → kvs.lookup "embeddings" = some ev →
       pyTruthy ev = false →
       extract_embedding (.obj kvs) = .val ev) ∧
    (∀ (kvs : List (String × JVal)) (x : JVal) (rest : List JVal),
       kvs.lookup "embedding" = none →
       kvs.lookup "embeddings" = some (.arr (x :: rest)) →
       (∀ l, ¬ x = .arr l) →
       extract_embedding (.obj kvs) = .val (.arr (x :: rest))) ∧
    (∀ (kvs : List (String × JVal)) (s : String),
       kvs.lookup "embedding" = none → kvs.lookup "embeddings" = some (.str s) →
       s ≠ "" →
       extract_embedding (.obj kvs) = .val (.str s)) ∧
    (∀ (resp v : JVal), extract_embedding resp = .val v → ¬ v = .null →
       get_embedding_from_ollama resp = some v) ∧
    (∀ resp : JVal, extract_embedding resp = .val .null →
       get_embedding_from_ollama resp = none) ∧
    (∀ resp : JVal, extract_embedding resp = .raised →
       get_embedding_from_ollama resp = none) := by
  refine ⟨?_, ?_, ?_, ?_, ?_, ?_, ?_, ?_, rfl, fun s => rfl, rfl, fun q => rfl,
    fun b => rfl, ?_, ?_, ?_, ?_, ?_, ?_, ?_, ?_⟩
  · intro kvs v h
    simp [extract_embedding, h]
  · intro kvs l rest h1 h2
    simp [extract_embedding, h1, h2, pyTruthy]
  · intro kvs rest v h
    simp [extract_embedding, h]
  · intro kvs rest v h1 h2
    simp [extract_embedding, h1, h2]
  · intro q rest
    simp [extract_embedding]
  · intro b rest
    simp [extract_embedding]
  · intro kvs h1 h2
    simp [extract_embedding, h1, h2]
  · intro kvs rest h1 h2
    simp [extract_embedding, h1, h2]
  · intro x rest hobj hnum hbool
    cases x with
    | num q => exact absurd rfl (hnum q)
    | str s => rfl
    | bool b => exact absurd rfl (hbool b)
    | null => rfl
    | arr l => rfl
    | obj kvs1 => exact absurd rfl (hobj kvs1)
  · intro kvs ev h1 h2 htr harr hstr
    cases ev with
    | num q => simp [extract_embedding, h1, h2, htr]
    | str s => exact absurd rfl (hstr s)
    | bool b => simp [extract_embedding, h1, h2, htr]
    | null => simp [pyTruthy] at htr
    | arr l => exact absurd rfl (harr l)
    | obj l => simp [extract_embedding, h1, h2, htr]
  · intro kvs ev h1 h2 hf
    simp [extract_embedding, h1, h2, hf]
  · intro kvs x rest h1 h2 hx
    cases x <;> simp [extract_embedding, h1, h2, pyTruthy]
    exact absurd rfl (hx _)
  · intro kvs s h1 h2 hs
    simp [extract_embedding, h1, h2, pyTruthy, hs]
  · intro resp v h hv
    unfold get_embedding_from_ollama
    rw [h]
    cases v <;> first | rfl | exact absurd rfl hv
  · intro resp h
    unfold get_embedding_from_ollama
    rw [h]
  · intro resp h
    unfold get_embedding_from_ollama
    rw [h]

/-- C9 witness: the first recognized shape at a concrete input — a dict
carrying an `embedding` key yields exactly that vector. -/
theorem C9_witness :
    extract_embedding (.obj [("embedding", .arr [.num 1])]) = .val (.arr [.num 1]) :=
  C9_shape_normalization.1 [("embedding", .arr [.num 1])] (.arr [.num 1]) rfl

theorem append_suffix_inj (a b s : String) (h : a ++ s = b ++ s) : a = b := by
  have h2 : a.data ++ s.data = b.data ++ s.data := by
    rw [← String.data_append, ← String.data_append, h]
  exact String.ext (List.append_cancel_right h2)

theorem docs_ne_chunks (a b : String) : a ++ "_documents" ≠ b ++ "_chunks" := by
  intro h
  have hd : a.data ++ "_documents".data = b.data ++ "_chunks".data := by
    rw [← String.data_append, ← String.data_append, h]
  have e : "_documents".data = "_do".data ++ "cuments".data := by decide
  rw [e, ← List.append_assoc] at hd
  have hlen : "cuments".data.length = "_chunks".data.length := by decide
  exact absurd (List.append_inj' hd hlen).2 (by decide)

theorem setColl_self (s : Store) (n : String) (l : List Entry) : setColl s n l n = l := by
  simp [setColl]

theorem setColl_other (s : Store) (n m : String) (l : List Entry) (h : m ≠ n) :
    setColl s n l m = s m := by
  simp [setColl, h]

theorem ingestOne_documents (nfkd : String → String) (src id : String)
    (d : DocEmbedding) (cs : List ChunkData) (s : Store) (n : String) :
    ingestOne nfkd src id d cs s n (n ++ "_documents")
      = ((s (n ++ "_documents")).filter (fun e => ¬ e.id = id)).filter
          (fun e => ¬ entrySource e = some (.s src))
        ++ [mkDocEntry nfkd src id n d] := by
  unfold ingestOne
  rw [setColl_other _ _ _ _ (docs_ne_chunks n n), setColl_self]

theorem ingestOne_chunks (nfkd : String → String) (src id : String)
    (d : DocEmbedding) (cs : List ChunkData) (s : Store) (n : String) :
    ingestOne nfkd src id d cs s n (n ++ "_chunks")
      = (s (n ++ "_chunks")).filter (fun e => ¬ entrySource e = some (.s src))
        ++ cs.map (mkChunkEntry nfkd src id n cs.length) := by
  unfold ingestOne
  rw [setColl_self]

theorem ingestOne_other (nfkd : String → String) (src id : String)
    (d : DocEmbedding) (cs : List ChunkData) (s : Store) (n m : String)
    (h1 : m ≠ n ++ "_documents") (h2 : m ≠ n ++ "_chunks") :
    ingestOne nfkd src id d cs s n m = s m := by
  unfold ingestOne
  rw [setColl_other _ _ _ _ h2, setColl_other _ _ _ _ h1]

theorem pyLower_default_eq : pyLower "default" = "default" := by decide

theorem mem_names_ne_default (c : String)
    (hc : c ≠ "" ∧ pyLower c ≠ "default") : c ≠ "default" := by
  intro h
  rw [h] at hc
  exact hc.2 pyLower_default_eq

theorem store_apply_docs (nfkd : String → String) (d : DocEmbedding)
    (cs : List ChunkData) (src id c : String) (s : Store) (n : String)
    (hn : n ∈ collection_names_to_use c) :
    store_embeddings_in_chromadb nfkd d cs src id c s (n ++ "_documents")
      = ((s (n ++ "_documents")).filter (fun e => ¬ e.id = id)).filter
          (fun e => ¬ entrySource e = some (.s src))
        ++ [mkDocEntry nfkd src id n d] := by
  unfold store_embeddings_in_chromadb collection_names_to_use
  unfold collection_names_to_use at hn
  by_cases hc : c ≠ "" ∧ pyLower c ≠ "default"
  · rw [if_pos hc] at hn ⊢
    have hcd : c ≠ "default" := mem_names_ne_default c hc
    simp only [List.foldl_cons, List.foldl_nil]
    rcases List.mem_cons.mp hn with rfl | hn2
    · rw [ingestOne_other nfkd src id d cs _ c _
        (fun h => hcd (append_suffix_inj _ _ _ h.symm))
        (fun h => docs_ne_chunks "default" c h)]
      exact ingestOne_documents nfkd src id d cs s "default"
    · have hn3 : n = c := by simpa using hn2
      subst hn3
      rw [ingestOne_documents nfkd src id d cs _ n,
        ingestOne_other nfkd src id d cs s "default" _
          (fun h => hcd (append_suffix_inj _ _ _ h))
          (fun h => docs_ne_chunks n "default" h)]
  · rw [if_neg hc] at hn ⊢
    have hn2 : n = "default" := by simpa using hn
    subst hn2
    simp only [List.foldl_cons, List.foldl_nil]
    exact ingestOne_documents nfkd src id d cs s "default"

theorem store_apply_chunks (nfkd : String → String) (d : DocEmbedding)
    (cs : List ChunkData) (src id c : String) (s : Store) (n : String)
    (hn : n ∈ collection_names_to_use c) :
    store_embeddings_in_chromadb nfkd d cs src id c s (n ++ "_chunks")
      = (s (n ++ "_chunks")).filter (fun e => ¬ entrySource e = some (.s src))
        ++ cs.map (mkChunkEntry nfkd src id n cs.length) := by
  unfold store_embeddings_in_chromadb collection_names_to_use
  unfold collection_names_to_use at hn
  by_cases hc : c ≠ "" ∧ pyLower c ≠ "default"
  · rw [if_pos hc] at hn ⊢
    have hcd : c ≠ "default" := mem_names_ne_default c hc
    simp only [List.foldl_cons, List.foldl_nil]
    rcases List.mem_cons.mp hn with rfl | hn2
    · rw [ingestOne_other nfkd src id d cs _ c _
        (fun h => docs_ne_chunks c "default" h.symm)
        (fun h => hcd (append_suffix_inj _ _ _ h.symm))]
      exact ingestOne_chunks nfkd src id d cs s "default"
    · have hn3 : n = c := by simpa using hn2
      subst hn3
      rw [ingestOne_chunks nfkd src id d cs _ n,
        ingestOne_other nfkd src id d cs s "default" _
          (fun h => docs_ne_chunks "default" n h.symm)
          (fun h => hcd (append_suffix_inj _ _ _ h))]
  · rw [if_neg hc] at hn ⊢
    have hn2 : n = "default" := by simpa using hn
    subst hn2
    simp only [List.foldl_cons, List.foldl_nil]
    exact ingestOne_chunks nfkd src id d cs s "default"

/-- C8 counterexample: with caller-chosen collection name `Default`, the
claimed deduplicated set is `{"default", "Default"}`, but the writer
lowercases the name before comparing with `default` and so resolves to
`{"default"}` only: after storing into an empty store, `Default_documents`
holds no entry at all, so the document is not visible under the
collection `Default`. -/
theorem C8_counterexample :
    ¬ (∀ n ∈ specResolvedNames "Default",
        ∃ e ∈ store_embeddings_in_chromadb (fun t => t) wDoc1 [] "/s" "doc1" "Default"
            emptyStore (n ++ "_documents"), e.id = "doc1") := by
  decide

/-- C8 (amended): every successful store operation writes the document
and its chunks under the resolved collection-name set — `default`, plus
the caller-chosen name when it is non-empty and not `default` up to
case: the document entry is in `{name}_documents` and every chunk entry
in `{name}_chunks` for each resolved name. -/
theorem C8_dual_write :
    ∀ (nfkd : String → String) (d : DocEmbedding) (cs : List ChunkData)
      (src id c : String) (s : Store), ∀ n ∈ collection_names_to_use c,
      mkDocEntry nfkd src id n d
          ∈ store_embeddings_in_chromadb nfkd d cs src id c s (n ++ "_documents") ∧
      ∀ cd ∈ cs, mkChunkEntry nfkd src id n cs.length cd
          ∈ store_embeddings_in_chromadb nfkd d cs src id c s (n ++ "_chunks") := by
  intro nfkd d cs src id c s n hn
  constructor
  · rw [store_apply_docs nfkd d cs src id c s n hn]
    exact List.mem_append_right _ (List.mem_singleton.mpr rfl)
  · intro cd hcd
    rw [store_apply_chunks nfkd d cs src id c s n hn]
    exact List.mem_append_right _ (List.mem_map_of_mem _ hcd)

/-- C8 witness: the amended theorem at a concrete store call with
collection name `mycoll`, resolved name `default`. -/
theorem C8_witness :
    mkDocEntry (fun t => t) "/s" "doc1" "default" wDoc1
      ∈ store_embeddings_in_chromadb (fun t => t) wDoc1 [wChunk1] "/s" "doc1" "mycoll"
          emptyStore ("default" ++ "_documents") :=
  (C8_dual_write (fun t => t) wDoc1 [wChunk1] "/s" "doc1" "mycoll" emptyStore
    "default" (by decide)).1

theorem entrySource_mkChunkEntry (nfkd : String → String) (src id n : String)
    (total : Nat) (cd : ChunkData) :
    entrySource (mkChunkEntry nfkd src id n total cd) = some (.s src) := rfl

theorem filter_docs_id (X : List Entry) (p : Entry → Bool) (id : String) :
    ((X.filter (fun e => ¬ e.id = id)).filter p).filter (fun e => e.id = id) = [] := by
  apply List.filter_eq_nil_iff.mpr
  intro e he
  have h1 := (List.mem_filter.mp (List.mem_filter.mp he).1).2
  simp at h1 ⊢
  exact h1

theorem filter_src_map_nil (nfkd : String → String) (src id n : String) (total : Nat)
    (cs : List ChunkData) :
    (cs.map (mkChunkEntry nfkd src id n total)).filter
      (fun e => ¬ entrySource e = some (.s src)) = [] := by
  apply List.filter_eq_nil_iff.mpr
  intro e he
  obtain ⟨cd, hcd, rfl⟩ := List.mem_map.mp he
  simp [entrySource_mkChunkEntry]

theorem filter_idem (X : List Entry) (p : Entry → Bool) :
    (X.filter p).filter p = X.filter p := by
  rw [List.filter_filter]
  simp

theorem filter_map_chunk_id (nfkd : String → String) (src id n : String) (total : Nat)
    (cs : List ChunkData) (hnd : (cs.map (chunkEntryId id)).Nodup)
    (cd : ChunkData) (hcd : cd ∈ cs) :
    (cs.map (mkChunkEntry nfkd src id n total)).filter
        (fun e => e.id = chunkEntryId id cd)
      = [mkChunkEntry nfkd src id n total cd] := by
  induction cs with
  | nil => simp at hcd
  | cons x rest ih =>
    rw [List.map_cons, List.nodup_cons] at hnd
    rw [List.map_cons, List.filter_cons]
    rcases List.mem_cons.mp hcd with rfl | hmem
    · rw [if_pos (by simp [mkChunkEntry])]
      have hrest : (rest.map (mkChunkEntry nfkd src id n total)).filter
          (fun e => e.id = chunkEntryId id cd) = [] := by
        apply List.filter_eq_nil_iff.mpr
        intro e he
        obtain ⟨y, hy, rfl⟩ := List.mem_map.mp he
        simp only [mkChunkEntry, decide_eq_true_eq]
        intro hid
        exact hnd.1 (hid ▸ List.mem_map_of_mem _ hy)
      rw [hrest]
    · have hne : ¬ (mkChunkEntry nfkd src id n total x).id = chunkEntryId id cd := by
        simp only [mkChunkEntry]
        intro hid
        exact hnd.1 (hid ▸ List.mem_map_of_mem _ hmem)
      rw [if_neg (by simpa using hne)]
      exact ih hnd.2 hmem

/-- C6 counterexample: the claim quantifies over every store state, but
chunk entries are deleted only by metadata source, never by id.  Start
from a store whose `default_chunks` already holds an entry with id
`doc_chunk_0` and a different source `/other` (reachable by ingesting the
same document id from another source path); after ingesting source `/s`
with document id `doc` twice, `default_chunks` holds two live entries
with the chunk id `doc_chunk_0` of the second ingestion, not exactly
one. -/
theorem C6_counterexample :
    ((c6final "default_chunks").filter (fun e => e.id = "doc_chunk_0")).length ≠ 1 := by
  decide

/-- C6 (amended): storing a document is a replace, not an append: for
every store state in which no chunk entry with a different metadata
source already occupies one of the ingestion's chunk ids, ingesting the
same sourcePath/document id twice (with different content) leaves exactly
one live entry for the document id in each resolved `{name}_documents`
collection and exactly one live entry per chunk id of the second
ingestion in `{name}_chunks`, whose content matches the second ingestion
— prior document entries with the same id or source, and prior chunk
entries with the same source, are deleted before insertion. -/
theorem C6_replace_semantics :
    ∀ (nfkd : String → String) (s0 : Store) (c src id : String)
      (d1 d2 : DocEmbedding) (c1 c2 : List ChunkData),
      (c2.map (chunkEntryId id)).Nodup →
      (∀ n ∈ collection_names_to_use c, ∀ e ∈ s0 (n ++ "_chunks"),
        ¬ entrySource e = some (.s src) → e.id ∉ c2.map (chunkEntryId id)) →
      ∀ n ∈ collection_names_to_use c,
        (store_embeddings_in_chromadb nfkd d2 c2 src id c
            (store_embeddings_in_chromadb nfkd d1 c1 src id c s0)
            (n ++ "_documents")).filter (fun e => e.id = id)
          = [mkDocEntry nfkd src id n d2] ∧
        ∀ cd ∈ c2,
          (store_embeddings_in_chromadb nfkd d2 c2 src id c
              (store_embeddings_in_chromadb nfkd d1 c1 src id c s0)
              (n ++ "_chunks")).filter (fun e => e.id = chunkEntryId id cd)
            = [mkChunkEntry nfkd src id n c2.length cd] := by
  intro nfkd s0 c src id d1 d2 c1 c2 hnd hclean n hn
  constructor
  · rw [store_apply_docs nfkd d2 c2 src id c _ n hn, List.filter_append, filter_docs_id]
    simp [mkDocEntry]
  · intro cd hcd
    rw [store_apply_chunks nfkd d2 c2 src id c _ n hn,
      store_apply_chunks nfkd d1 c1 src id c s0 n hn,
      List.filter_append, List.filter_append, filter_idem, filter_src_map_nil,
      List.append_nil, filter_map_chunk_id nfkd src id n c2.length c2 hnd cd hcd]
    have hnil : ((s0 (n ++ "_chunks")).filter
        (fun e => ¬ entrySource e = some (.s src))).filter
        (fun e => e.id = chunkEntryId id cd) = [] := by
      apply List.filter_eq_nil_iff.mpr
      intro e he
      have h1 := List.mem_filter.mp he
      have h2 := hclean n hn e h1.1 (by simpa using h1.2)
      simp only [decide_eq_true_eq]
      intro hid
      exact h2 (hid ▸ List.mem_map_of_mem _ hcd)
    rw [hnil]
    simp

/-- C6 witness: the amended theorem at a concrete double ingestion into
an empty store — the surviving document entry under `default` is exactly
the second ingestion's. -/
theorem C6_witness :
    (store_embeddings_in_chromadb (fun t => t) wDoc2 [wChunk2] "/s" "doc" "default"
        (store_embeddings_in_chromadb (fun t => t) wDoc1 [wChunk1] "/s" "doc" "default"
          emptyStore)
        ("default" ++ "_documents")).filter (fun e => e.id = "doc")
      = [mkDocEntry (fun t => t) "/s" "doc" "default" wDoc2] :=
  (C6_replace_semantics (fun t => t) emptyStore "default" "/s" "doc" wDoc1 wDoc2
    [wChunk1] [wChunk2] (by decide) (by decide) "default" (by decide)).1

theorem insertDesc_perm (k : RagResult → ℚ) (x : RagResult) :
    ∀ l, List.Perm (insertDesc k x l) (x :: l) := by
  intro l
  induction l with
  | nil => exact List.Perm.refl _
  | cons y ys ih =>
    rw [insertDesc]
    by_cases h : k x ≤ k y
    · rw [if_pos h]
      exact (ih.cons y).trans (List.Perm.swap x y ys)
    · rw [if_neg h]

theorem foldl_insertDesc_perm (k : RagResult → ℚ) :
    ∀ (l acc : List RagResult),
      List.Perm (l.foldl (fun a x => insertDesc k x a) acc) (acc ++ l) := by
  intro l
  induction l with
  | nil => intro acc; simp
  | cons x xs ih =>
    intro acc
    rw [List.foldl_cons]
    refine (ih (insertDesc k x acc)).trans ?_
    exact ((insertDesc_perm k x acc).append_right xs).trans List.perm_middle.symm

theorem sortDesc_perm (k : RagResult → ℚ) (l : List RagResult) :
    List.Perm (sortDesc k l) l := by
  simpa using foldl_insertDesc_perm k l []

theorem mem_of_mem_takeIte (nr : Nat) (l : List RagResult) (r0 : RagResult)
    (h : r0 ∈ if nr < l.length then l.take nr else l) : r0 ∈ l := by
  split at h
  · exact List.mem_of_mem_take h
  · exact h

theorem processDocHits_nil (t dw : ℚ) (b : Bool) : processDocHits [] t dw b = [] := rfl

theorem processChunkHits_nil (t cw : ℚ) (b : Bool) : processChunkHits [] t cw b = [] := rfl

theorem mem_processDocHits (hits : List QueryHit) (t dw : ℚ) (b : Bool) (r : RagResult)
    (h : r ∈ processDocHits hits t dw b) :
    t ≤ r.similarity ∧ ∃ h0, h0 ∈ hits ∧ r.similarity = 1 - h0.distance := by
  unfold processDocHits surviving at h
  obtain ⟨h0, hh0, rfl⟩ := List.mem_map.mp h
  have hf := List.mem_filter.mp hh0
  exact ⟨by simpa using hf.2, h0, hf.1, rfl⟩

theorem mem_processChunkHits (hits : List QueryHit) (t cw : ℚ) (b : Bool) (r : RagResult)
    (h : r ∈ processChunkHits hits t cw b) :
    t ≤ r.similarity ∧ ∃ h0, h0 ∈ hits ∧ r.similarity = 1 - h0.distance := by
  unfold processChunkHits surviving at h
  obtain ⟨h0, hh0, rfl⟩ := List.mem_map.mp h
  have hf := List.mem_filter.mp hh0
  exact ⟨by simpa using hf.2, h0, hf.1, rfl⟩

theorem mem_query_results (store : HitStore) (mode : String) (nr : Nat) (t cw dw : ℚ)
    (r : RagResult) (hr : r ∈ (query_chroma store mode nr t cw dw).results) :
    r.adjusted_similarity = none ∧ t ≤ r.similarity ∧
    ∃ h0, (h0 ∈ store "document_collection" ∨ h0 ∈ store "document_chunks_collection") ∧
      r.similarity = 1 - h0.distance := by
  simp only [query_chroma] at hr
  obtain ⟨r0, hr0, rfl⟩ := List.mem_map.mp hr
  refine ⟨rfl, ?_⟩
  have hr1 := mem_of_mem_takeIte _ _ _ hr0
  have hr2 := (sortDesc_perm _ _).mem_iff.mp hr1
  by_cases hd : mode = "documents"
  · subst hd
    simp only [reduceIte, reduceCtorEq, String.reduceEq, or_self, or_false,
      if_true, if_false] at hr2
    simp at hr2
    obtain ⟨ht, h0, hh0, hsim⟩ := mem_processDocHits _ _ _ _ _ hr2
    exact ⟨by simpa using ht, h0, Or.inl hh0, by simpa using hsim⟩
  · by_cases hc : mode = "chunks"
    · subst hc
      simp at hr2
      obtain ⟨ht, h0, hh0, hsim⟩ := mem_processChunkHits _ _ _ _ _ hr2
      exact ⟨by simpa using ht, h0, Or.inr hh0, by simpa using hsim⟩
    · by_cases hb : mode = "both"
      · subst hb
        simp at hr2
        rcases hr2 with hside | hside
        · obtain ⟨ht, h0, hh0, hsim⟩ := mem_processDocHits _ _ _ _ _ hside
          exact ⟨by simpa using ht, h0, Or.inl hh0, by simpa using hsim⟩
        · obtain ⟨ht, h0, hh0, hsim⟩ := mem_processChunkHits _ _ _ _ _ hside
          exact ⟨by simpa using ht, h0, Or.inr hh0, by simpa using hsim⟩
      · simp only [hd, hc, hb, if_false, or_self, processDocHits_nil,
          processChunkHits_nil] at hr2
        simp at hr2

/-- C7: for every query, each returned result's similarity is `1` minus
the distance of some hit from the consulted indexes and no result with
similarity strictly below the threshold appears; concretely, for mode
`documents` with threshold 0.5 and candidate similarities
[0.9, 0.4, 0.6] the returned similarities are [0.9, 0.6] in descending
order with 0.4 excluded. -/
theorem C7_similarity_conversion :
    (∀ (store : HitStore) (mode : String) (nr : Nat) (t cw dw : ℚ),
      ∀ r ∈ (query_chroma store mode nr t cw dw).results,
        t ≤ r.similarity ∧
        ∃ h0, (h0 ∈ store "document_collection" ∨ h0 ∈ store "document_chunks_collection")
          ∧ r.similarity = 1 - h0.distance) ∧
    (query_chroma store7 "documents" 5 (1/2) (6/10) (4/10)).results.map
      (fun r => r.similarity) = [9/10, 3/5] := by
  constructor
  · intro store mode nr t cw dw r hr
    exact (mem_query_results store mode nr t cw dw r hr).2
  · simp [query_chroma, processDocHits, processChunkHits, surviving, sortDesc,
      store7, sideNames, baseName, dedupAppend, updateLineRange]
    norm_num [insertDesc]

/-- C7 witness: the theorem applied to the top result of the concrete
`documents`-mode query on `store7`. -/
theorem C7_witness :
    (1 : ℚ)/2 ≤ r7top.similarity ∧
    ∃ h0, (h0 ∈ store7 "document_collection" ∨ h0 ∈ store7 "document_chunks_collection")
      ∧ r7top.similarity = 1 - h0.distance :=
  C7_similarity_conversion.1 store7 "documents" 5 (1/2) (6/10) (4/10) r7top (by
    have hres : (query_chroma store7 "documents" 5 (1/2) (6/10) (4/10)).results
        = [r7top, r7b] := by
      simp [query_chroma, processDocHits, processChunkHits, surviving, sortDesc,
        store7, sideNames, baseName, dedupAppend, updateLineRange, r7top, r7b]
      norm_num [insertDesc]
    rw [hres]
    simp)

/-- C2 counterexample: in mode `both` with a chunk result of raw
similarity 0.9 under chunk weight 0.6 (adjusted 0.54) and a document
result of raw similarity 0.5 under document weight 0.9 (adjusted 0.45),
the claim requires the chunk to rank below the document, i.e. the
returned `is_chunk` flags in rank order would be `[false, true]`; the
code ranks the chunk first. -/
theorem C2_counterexample :
    ¬ ((query_chroma c2store "both" 5 0 (6/10) (9/10)).results.map
        (fun r => r.is_chunk) = [false, true]) := by
  intro hc
  rw [show (query_chroma c2store "both" 5 0 (6/10) (9/10)).results.map
      (fun r => r.is_chunk) = [true, false] from by
    simp [query_chroma, processDocHits, processChunkHits, surviving, sortDesc,
      c2store, sideNames, baseName, dedupAppend, updateLineRange]
    norm_num [insertDesc]] at hc
  simp at hc

/-- C2 (amended): in query mode `both`, a chunk result with raw
similarity 0.9 under chunk weight 0.6 ranks above a document result with
raw similarity 0.5 under document weight 0.9 (adjusted 0.54 vs 0.45),
while each returned result's exposed `similarity` stays the unweighted
raw value; and in every mode the internal `adjusted_similarity` ranking
key is removed from every returned result. -/
theorem C2_weighted_ranking :
    ((query_chroma c2store "both" 5 0 (6/10) (9/10)).results.map
      (fun r => (r.is_chunk, r.similarity)) = [(true, 9/10), (false, 1/2)]) ∧
    (∀ (store : HitStore) (mode : String) (nr : Nat) (t cw dw : ℚ),
      ∀ r ∈ (query_chroma store mode nr t cw dw).results,
        r.adjusted_similarity = none) := by
  constructor
  · simp [query_chroma, processDocHits, processChunkHits, surviving, sortDesc,
      c2store, sideNames, baseName, dedupAppend, updateLineRange]
    norm_num [insertDesc]
  · intro store mode nr t cw dw r hr
    exact (mem_query_results store mode nr t cw dw r hr).1

/-- C2 witness: the amended theorem's ranking-key removal applied to the
top result of the concrete `both`-mode query. -/
theorem C2_witness : c2top.adjusted_similarity = none :=
  C2_weighted_ranking.2 c2store "both" 5 0 (6/10) (9/10) c2top (by
    have hres : (query_chroma c2store "both" 5 0 (6/10) (9/10)).results
        = [c2top, c2doc] := by
      simp [query_chroma, processDocHits, processChunkHits, surviving, sortDesc,
        c2store, sideNames, baseName, dedupAppend, updateLineRange, c2top, c2doc]
      norm_num [insertDesc]
      all_goals simp [List.lookup]
    rw [hres]
    simp)

/-- C3: the retriever queries the fixed index names
`document_collection` and `document_chunks_collection`, not the
persisted `{collection}_documents`/`{collection}_chunks` layout written
by the store writer: against indexes where `default_documents` holds a
perfectly matching stored document (distance 0, well above the
threshold), a `documents`-mode query returns no results at all. -/
theorem C3_fixed_collection_names :
    (query_chroma c3store "documents" 5 (1/2) (6/10) (4/10)).results = [] ∧
    c3store ("default" ++ "_documents") ≠ [] := by
  constructor
  · simp [query_chroma, processDocHits, processChunkHits, surviving, sortDesc,
      c3store, sideNames, baseName, dedupAppend, updateLineRange]
  · decide

/-- C10: a service response that is a dict whose `embeddings` key holds
an empty list yields the empty list as the embedding (not None), so the
call is a success, and `generate_chunk_embeddings` accepts the empty
vector for each chunk instead of aborting (shown on a two-chunk
document whose every call returns that response). -/
theorem C10_empty_embeddings_accepted :
    get_embedding_from_ollama (.obj [("embeddings", .arr [])]) = some (.arr []) ∧
    generate_chunk_embeddings "a\nb" 1 0 w10outcome true (chunk_text "a\nb" 1 0).enum
      = some [some ⟨0, 1, 1, .arr [], 0, "t", some "a"⟩,
              some ⟨1, 2, 2, .arr [], 0, "t", some "b"⟩] :=
  ⟨rfl, rfl⟩

end ORS
